import Mathlib

/-!
Verification development for the d2q9-bgk lattice Boltzmann code
(src/d2q9-bgk_ver3.c).  The channel values are modelled over the exact
rationals; the velocity-magnitude reduction, which the C code computes
with sqrtf, is modelled over the reals with Real.sqrt.  Arrays are
modelled as total functions from flat indices, addressed exactly as the
C code addresses them (flat index ii + jj*nx, channel-separated
storage).
-/

namespace LBM

/-- Mirror of the C struct t_param. -/
structure t_param where
  nx : ℕ
  ny : ℕ
  maxIters : ℕ
  reynolds_dim : ℕ
  density : ℚ
  accel : ℚ
  omega : ℚ

/-- One lattice grid: 9 channel buffers, each a flat array modelled as a
total function from flat index to value (mirror of t_speed). -/
abbrev Speeds := ℕ → ℕ → ℚ

/-- The obstacle mask, one flag per flat index (mirror of int* obstacles). -/
abbrev Obstacles := ℕ → Bool

/-- Mirror of accelerate_flow: on the row at index ny-2, for each
non-obstacle column whose guarded channels stay strictly positive,
redistribute density toward +x.  A flat index idx lies on the target
row exactly when idx / nx = ny - 2 (for nx > 0). -/
def accelerate_flow (p : t_param) (cells : Speeds) (obstacles : Obstacles) : Speeds :=
  let w1 : ℚ := p.density * p.accel / 9
  let w2 : ℚ := p.density * p.accel / 36
  fun k idx =>
    if 0 < p.nx ∧ idx / p.nx = p.ny - 2 ∧ obstacles idx = false
        ∧ 0 < cells 3 idx - w1 ∧ 0 < cells 6 idx - w2 ∧ 0 < cells 7 idx - w2 then
      match k with
      | 1 => cells 1 idx + w1
      | 5 => cells 5 idx + w2
      | 8 => cells 8 idx + w2
      | 3 => cells 3 idx - w1
      | 6 => cells 6 idx - w2
      | 7 => cells 7 idx - w2
      | _ => cells k idx
    else cells k idx

/-- The streaming gather of propagate: the value pulled into channel k of
cell (row jj, col ii), read from the wrapped neighbour exactly as the C
code computes it (y_n, x_e, y_s, x_w). -/
def gather (p : t_param) (cells : Speeds) (jj ii k : ℕ) : ℚ :=
  let y_n := (jj + 1) % p.ny
  let x_e := (ii + 1) % p.nx
  let y_s := if jj = 0 then jj + p.ny - 1 else jj - 1
  let x_w := if ii = 0 then ii + p.nx - 1 else ii - 1
  match k with
  | 0 => cells 0 (ii + jj * p.nx)
  | 1 => cells 1 (x_w + jj * p.nx)
  | 2 => cells 2 (ii + y_s * p.nx)
  | 3 => cells 3 (x_e + jj * p.nx)
  | 4 => cells 4 (ii + y_n * p.nx)
  | 5 => cells 5 (x_w + y_s * p.nx)
  | 6 => cells 6 (x_e + y_s * p.nx)
  | 7 => cells 7 (x_e + y_n * p.nx)
  | 8 => cells 8 (x_w + y_n * p.nx)
  | _ => 0

/-- local_density of propagate: sum of the 9 gathered values. -/
def local_density (p : t_param) (cells : Speeds) (jj ii : ℕ) : ℚ :=
  gather p cells jj ii 0 + gather p cells jj ii 1 + gather p cells jj ii 2
    + gather p cells jj ii 3 + gather p cells jj ii 4 + gather p cells jj ii 5
    + gather p cells jj ii 6 + gather p cells jj ii 7 + gather p cells jj ii 8

/-- u_x of propagate. -/
def u_x (p : t_param) (cells : Speeds) (jj ii : ℕ) : ℚ :=
  (gather p cells jj ii 1 + gather p cells jj ii 5 + gather p cells jj ii 8
    - gather p cells jj ii 3 - gather p cells jj ii 6 - gather p cells jj ii 7)
    / local_density p cells jj ii

/-- u_y of propagate. -/
def u_y (p : t_param) (cells : Speeds) (jj ii : ℕ) : ℚ :=
  (gather p cells jj ii 2 + gather p cells jj ii 5 + gather p cells jj ii 6
    - gather p cells jj ii 4 - gather p cells jj ii 7 - gather p cells jj ii 8)
    / local_density p cells jj ii

/-- The value propagate writes into channel k of cell (jj, ii) of the
scratch grid: bounce-back mirroring at an obstacle cell, BGK relaxation
toward the equilibrium densities d_equ at a fluid cell. -/
def propagateCell (p : t_param) (cells : Speeds) (obstacles : Obstacles)
    (jj ii k : ℕ) : ℚ :=
  let s0 := gather p cells jj ii 0
  let s1 := gather p cells jj ii 1
  let s2 := gather p cells jj ii 2
  let s3 := gather p cells jj ii 3
  let s4 := gather p cells jj ii 4
  let s5 := gather p cells jj ii 5
  let s6 := gather p cells jj ii 6
  let s7 := gather p cells jj ii 7
  let s8 := gather p cells jj ii 8
  if obstacles (ii + jj * p.nx) then
    match k with
    | 0 => s0
    | 1 => s3
    | 2 => s4
    | 3 => s1
    | 4 => s2
    | 5 => s7
    | 6 => s8
    | 7 => s5
    | 8 => s6
    | _ => 0
  else
    let c_sq : ℚ := 1 / 3
    let c_2sq2 : ℚ := 2 * c_sq * c_sq
    let c_2sq : ℚ := 2 * c_sq
    let w0 : ℚ := 4 / 9
    let w1 : ℚ := 1 / 9
    let w2 : ℚ := 1 / 36
    let ux := u_x p cells jj ii
    let uy := u_y p cells jj ii
    let u_sq := ux * ux + uy * uy
    let u1 := ux
    let u2 := uy
    let u3 := -ux
    let u4 := -uy
    let u5 := ux + uy
    let u6 := -ux + uy
    let u7 := -ux - uy
    let u8 := ux - uy
    let ld := local_density p cells jj ii
    let d0 := w0 * ld * (1 - u_sq / c_2sq)
    let d1 := w1 * ld * (1 + u1 / c_sq + (u1 * u1) / c_2sq2 - u_sq / c_2sq)
    let d2 := w1 * ld * (1 + u2 / c_sq + (u2 * u2) / c_2sq2 - u_sq / c_2sq)
    let d3 := w1 * ld * (1 + u3 / c_sq + (u3 * u3) / c_2sq2 - u_sq / c_2sq)
    let d4 := w1 * ld * (1 + u4 / c_sq + (u4 * u4) / c_2sq2 - u_sq / c_2sq)
    let d5 := w2 * ld * (1 + u5 / c_sq + (u5 * u5) / c_2sq2 - u_sq / c_2sq)
    let d6 := w2 * ld * (1 + u6 / c_sq + (u6 * u6) / c_2sq2 - u_sq / c_2sq)
    let d7 := w2 * ld * (1 + u7 / c_sq + (u7 * u7) / c_2sq2 - u_sq / c_2sq)
    let d8 := w2 * ld * (1 + u8 / c_sq + (u8 * u8) / c_2sq2 - u_sq / c_2sq)
    match k with
    | 0 => s0 + p.omega * (d0 - s0)
    | 1 => s1 + p.omega * (d1 - s1)
    | 2 => s2 + p.omega * (d2 - s2)
    | 3 => s3 + p.omega * (d3 - s3)
    | 4 => s4 + p.omega * (d4 - s4)
    | 5 => s5 + p.omega * (d5 - s5)
    | 6 => s6 + p.omega * (d6 - s6)
    | 7 => s7 + p.omega * (d7 - s7)
    | 8 => s8 + p.omega * (d8 - s8)
    | _ => 0

/-- The scratch grid after propagate: every in-range cell of every
channel k < 9 is overwritten with propagateCell (at jj = idx / nx,
ii = idx % nx, the unique decomposition of the write index
ii + jj*nx); all other entries keep the old scratch contents. -/
def propagate_grid (p : t_param) (cells tmp : Speeds) (obstacles : Obstacles) : Speeds :=
  fun k idx =>
    if k < 9 ∧ 0 < p.nx ∧ idx < p.nx * p.ny then
      propagateCell p cells obstacles (idx / p.nx) (idx % p.nx) k
    else tmp k idx

/-- The contribution of cell (jj, ii) to tot_cells of propagate. -/
def cell_count (p : t_param) (obstacles : Obstacles) (jj ii : ℕ) : ℕ :=
  if obstacles (ii + jj * p.nx) then 0 else 1

/-- tot_cells of propagate. -/
def tot_cells (p : t_param) (obstacles : Obstacles) : ℕ :=
  ∑ jj ∈ Finset.range p.ny, ∑ ii ∈ Finset.range p.nx, cell_count p obstacles jj ii

/-- The contribution of cell (jj, ii) to tot_u of propagate (the C code
computes sqrtf(u_x*u_x + u_y*u_y) there). -/
noncomputable def cellU (p : t_param) (cells : Speeds) (obstacles : Obstacles)
    (jj ii : ℕ) : ℝ :=
  if obstacles (ii + jj * p.nx) then 0
  else Real.sqrt ((u_x p cells jj ii * u_x p cells jj ii
    + u_y p cells jj ii * u_y p cells jj ii : ℚ) : ℝ)

/-- tot_u of propagate. -/
noncomputable def tot_u (p : t_param) (cells : Speeds) (obstacles : Obstacles) : ℝ :=
  ∑ jj ∈ Finset.range p.ny, ∑ ii ∈ Finset.range p.nx, cellU p cells obstacles jj ii

/-- The scalar returned by propagate: tot_u / tot_cells. -/
noncomputable def propagate_av (p : t_param) (cells : Speeds) (obstacles : Obstacles) : ℝ :=
  tot_u p cells obstacles / (tot_cells p obstacles : ℝ)

/-- The scalar returned by timestep: accelerate_flow then propagate. -/
noncomputable def timestep_av (p : t_param) (cells : Speeds) (obstacles : Obstacles) : ℝ :=
  propagate_av p (accelerate_flow p cells obstacles) obstacles

/-- One driver iteration on the double buffer (current, scratch):
timestep mutates the current buffer in place via accelerate_flow,
propagate writes the scratch buffer, and the two swap roles. -/
def step_pair (p : t_param) (obstacles : Obstacles) (s : Speeds × Speeds) :
    Speeds × Speeds :=
  (propagate_grid p (accelerate_flow p s.1 obstacles) s.2 obstacles,
   accelerate_flow p s.1 obstacles)

/-- The double buffer after n timesteps of the driver loop. -/
def run (p : t_param) (obstacles : Obstacles) : ℕ → Speeds × Speeds → Speeds × Speeds
  | 0, s => s
  | n + 1, s => run p obstacles n (step_pair p obstacles s)

/-- total_density: sum of all channel values over all in-range cells. -/
def total_density (p : t_param) (cells : Speeds) : ℚ :=
  ∑ jj ∈ Finset.range p.ny, ∑ ii ∈ Finset.range p.nx,
    ∑ kk ∈ Finset.range 9, cells kk (ii + jj * p.nx)

/-- The equilibrium initialization of main: channel 0 gets
density*4/9, the axis channels density/9, the diagonals density/36. -/
def init_val (p : t_param) (k : ℕ) : ℚ :=
  match k with
  | 0 => p.density * 4 / 9
  | 1 | 2 | 3 | 4 => p.density / 9
  | _ => p.density / 36

/-- The discrete velocity of channel k (x component, y component). -/
def velocity (k : ℕ) : ℤ × ℤ :=
  match k with
  | 0 => (0, 0)
  | 1 => (1, 0)
  | 2 => (0, 1)
  | 3 => (-1, 0)
  | 4 => (0, -1)
  | 5 => (1, 1)
  | 6 => (-1, 1)
  | 7 => (-1, -1)
  | 8 => (1, -1)
  | _ => (0, 0)

/-- The flat index of the cell displaced from (row jj, col ii) by
minus the velocity of channel k, both coordinates wrapped modulo
(nx, ny). -/
def stream_source_index (p : t_param) (jj ii k : ℕ) : ℕ :=
  (((ii : ℤ) - (velocity k).1) % (p.nx : ℤ)).toNat
    + (((jj : ℤ) - (velocity k).2) % (p.ny : ℤ)).toNat * p.nx

/-- The flat indices written by the driver loop of main, which starts at
tt = 0, runs while tt < maxIters in increments of 2, and writes
av_vels[tt] and av_vels[tt + 1] on each iteration (each write records
the return of one timestep invocation). -/
def loop_writes (maxIters tt : ℕ) : List ℕ :=
  if tt < maxIters then tt :: (tt + 1) :: loop_writes maxIters (tt + 2) else []
  termination_by maxIters - tt
  decreasing_by omega

/-- The obstacle flag printed as the seventh field of a final-state
line by write_values: the C code reads obstacles[ii * nx + jj]. -/
def write_flag (p : t_param) (obstacles : Obstacles) (jj ii : ℕ) : Bool :=
  obstacles (ii * p.nx + jj)

/-- The obstacle flag that selects between the obstacle and fluid
branches of the same write_values line: obstacles[ii + jj * nx]. -/
def cell_obstacle (p : t_param) (obstacles : Obstacles) (jj ii : ℕ) : Bool :=
  obstacles (ii + jj * p.nx)

/- ------------------------------------------------------------------ -/
/- Helper lemmas. -/

lemma flat_lt {nx ny jj ii : ℕ} (hjj : jj < ny) (hii : ii < nx) :
    ii + jj * nx < nx * ny := by
  calc ii + jj * nx < nx + jj * nx := by omega
    _ = (jj + 1) * nx := by ring
    _ ≤ ny * nx := Nat.mul_le_mul_right nx hjj
    _ = nx * ny := Nat.mul_comm ny nx

lemma flat_div {nx jj ii : ℕ} (hnx : 0 < nx) (hii : ii < nx) :
    (ii + jj * nx) / nx = jj := by
  rw [Nat.mul_comm jj nx, Nat.add_mul_div_left ii jj hnx, Nat.div_eq_of_lt hii]
  omega

lemma flat_mod {nx jj ii : ℕ} (hii : ii < nx) :
    (ii + jj * nx) % nx = ii := by
  rw [Nat.mul_comm jj nx, Nat.add_mul_mod_self_left, Nat.mod_eq_of_lt hii]

lemma wrap_pred_toNat {n i : ℕ} (hn : 0 < n) (hi : i < n) :
    (((i : ℤ) - 1) % (n : ℤ)).toNat = if i = 0 then i + n - 1 else i - 1 := by
  by_cases h : i = 0
  · subst h
    have h2 : ((n : ℤ) - 1) % (n : ℤ) = (n : ℤ) - 1 :=
      Int.emod_eq_of_lt (by omega) (by omega)
    have h3 : ((-1 : ℤ) + (n : ℤ) * 1) % (n : ℤ) = (-1 : ℤ) % (n : ℤ) :=
      Int.add_mul_emod_self_left (-1) (n : ℤ) 1
    have h1 : (((0 : ℕ) : ℤ) - 1) % (n : ℤ) = (n : ℤ) - 1 := by
      have h4 : (((0 : ℕ) : ℤ) - 1) % (n : ℤ) = (-1 : ℤ) % (n : ℤ) := by norm_num
      have h5 : ((-1 : ℤ) + (n : ℤ) * 1) = (n : ℤ) - 1 := by ring
      rw [h4, ← h3, h5, h2]
    rw [h1, if_pos rfl]
    omega
  · have h1 : ((i : ℤ) - 1) % (n : ℤ) = (i : ℤ) - 1 :=
      Int.emod_eq_of_lt (by omega) (by omega)
    rw [h1, if_neg h]
    omega

lemma wrap_succ_toNat (n i : ℕ) :
    (((i : ℤ) + 1) % (n : ℤ)).toNat = (i + 1) % n := by
  have h1 : ((i : ℤ) + 1) % (n : ℤ) = (((i + 1) % n : ℕ) : ℤ) := by
    push_cast
    rfl
  rw [h1, Int.toNat_natCast]

lemma wrap_zero_toNat {n i : ℕ} (hi : i < n) :
    (((i : ℤ) - 0) % (n : ℤ)).toNat = i := by
  have h1 : ((i : ℤ) - 0) % (n : ℤ) = (i : ℤ) :=
    by rw [sub_zero]; exact Int.emod_eq_of_lt (by omega) (by omega)
  rw [h1, Int.toNat_natCast]

/- ------------------------------------------------------------------ -/
/- C1 -/

/-- C1: for every grid with nx, ny > 0, every cell (jj, ii) and every
channel k in 0..8, the value gathered by the streaming phase of
propagate is read from the current buffer at the cell displaced by
minus velocity(k), with both coordinates wrapped modulo (nx, ny); in
particular channel 1 is read from the cell one column to the west with
column wraparound and channel 0 from the cell itself. -/
theorem stream_gather_source (p : t_param) (c : Speeds) (jj ii k : ℕ)
    (hny : 0 < p.ny) (hnx : 0 < p.nx) (hjj : jj < p.ny) (hii : ii < p.nx)
    (hk : k < 9) :
    gather p c jj ii k = c k (stream_source_index p jj ii k) := by
  interval_cases k
  · simp only [gather, stream_source_index, velocity]
    rw [wrap_zero_toNat hii, wrap_zero_toNat hjj]
  · simp only [gather, stream_source_index, velocity]
    rw [wrap_pred_toNat hnx hii, wrap_zero_toNat hjj]
  · simp only [gather, stream_source_index, velocity]
    rw [wrap_zero_toNat hii, wrap_pred_toNat hny hjj]
  · simp only [gather, stream_source_index, velocity]
    rw [Int.sub_neg, wrap_succ_toNat p.nx ii, wrap_zero_toNat hjj]
  · simp only [gather, stream_source_index, velocity]
    rw [Int.sub_neg, wrap_zero_toNat hii, wrap_succ_toNat p.ny jj]
  · simp only [gather, stream_source_index, velocity]
    rw [wrap_pred_toNat hnx hii, wrap_pred_toNat hny hjj]
  · simp only [gather, stream_source_index, velocity]
    rw [Int.sub_neg, wrap_succ_toNat p.nx ii, wrap_pred_toNat hny hjj]
  · simp only [gather, stream_source_index, velocity]
    rw [Int.sub_neg, Int.sub_neg, wrap_succ_toNat p.nx ii, wrap_succ_toNat p.ny jj]
  · simp only [gather, stream_source_index, velocity]
    rw [Int.sub_neg, wrap_pred_toNat hnx hii, wrap_succ_toNat p.ny jj]

/-- Concrete parameters used to instantiate theorems with hypotheses. -/
def witnessParams : t_param :=
  { nx := 3, ny := 3, maxIters := 2, reynolds_dim := 1,
    density := 1, accel := 0, omega := 1 }

/-- A concrete grid whose channel values are all distinct. -/
def witnessCells : Speeds := fun k idx => (k : ℚ) * 100 + (idx : ℚ)

/-- Witness for C1: the theorem instantiated at a concrete grid, cell
and channel. -/
theorem stream_gather_source_witness :
    (0 : ℕ) < witnessParams.ny ∧ (0 : ℕ) < witnessParams.nx
      ∧ (1 : ℕ) < witnessParams.ny ∧ (2 : ℕ) < witnessParams.nx ∧ (5 : ℕ) < 9
      ∧ gather witnessParams witnessCells 1 2 5
          = witnessCells 5 (stream_source_index witnessParams 1 2 5) :=
  ⟨by norm_num [witnessParams], by norm_num [witnessParams],
   by norm_num [witnessParams], by norm_num [witnessParams], by norm_num,
   stream_gather_source witnessParams witnessCells 1 2 5
     (by norm_num [witnessParams]) (by norm_num [witnessParams])
     (by norm_num [witnessParams]) (by norm_num [witnessParams]) (by norm_num)⟩

lemma propagate_grid_at (p : t_param) (c tmp : Speeds) (obst : Obstacles)
    {jj ii k : ℕ} (hjj : jj < p.ny) (hii : ii < p.nx) (hk : k < 9) :
    propagate_grid p c tmp obst k (ii + jj * p.nx) = propagateCell p c obst jj ii k := by
  have hnx : 0 < p.nx := by omega
  simp only [propagate_grid]
  rw [if_pos ⟨hk, hnx, flat_lt hjj hii⟩, flat_div hnx hii, flat_mod hii]

/- ------------------------------------------------------------------ -/
/- C2 -/

/-- C2: at every obstacle cell, the next-buffer channels written by
propagate are the gathered values of the opposite directions, no
relaxation is applied, and the cell contributes neither to the
velocity sum (its tot_u summand is 0) nor to the fluid-cell count (its
tot_cells summand is 0). -/
theorem obstacle_bounce_back (p : t_param) (c tmp : Speeds) (obst : Obstacles)
    (jj ii : ℕ) (hjj : jj < p.ny) (hii : ii < p.nx)
    (hob : obst (ii + jj * p.nx) = true) :
    propagate_grid p c tmp obst 0 (ii + jj * p.nx) = gather p c jj ii 0
      ∧ propagate_grid p c tmp obst 1 (ii + jj * p.nx) = gather p c jj ii 3
      ∧ propagate_grid p c tmp obst 3 (ii + jj * p.nx) = gather p c jj ii 1
      ∧ propagate_grid p c tmp obst 2 (ii + jj * p.nx) = gather p c jj ii 4
      ∧ propagate_grid p c tmp obst 4 (ii + jj * p.nx) = gather p c jj ii 2
      ∧ propagate_grid p c tmp obst 5 (ii + jj * p.nx) = gather p c jj ii 7
      ∧ propagate_grid p c tmp obst 7 (ii + jj * p.nx) = gather p c jj ii 5
      ∧ propagate_grid p c tmp obst 6 (ii + jj * p.nx) = gather p c jj ii 8
      ∧ propagate_grid p c tmp obst 8 (ii + jj * p.nx) = gather p c jj ii 6
      ∧ cellU p c obst jj ii = 0
      ∧ cell_count p obst jj ii = 0 := by
  refine ⟨?_, ?_, ?_, ?_, ?_, ?_, ?_, ?_, ?_, ?_, ?_⟩
  · rw [propagate_grid_at p c tmp obst hjj hii (by norm_num)]
    simp [propagateCell, hob]
  · rw [propagate_grid_at p c tmp obst hjj hii (by norm_num)]
    simp [propagateCell, hob]
  · rw [propagate_grid_at p c tmp obst hjj hii (by norm_num)]
    simp [propagateCell, hob]
  · rw [propagate_grid_at p c tmp obst hjj hii (by norm_num)]
    simp [propagateCell, hob]
  · rw [propagate_grid_at p c tmp obst hjj hii (by norm_num)]
    simp [propagateCell, hob]
  · rw [propagate_grid_at p c tmp obst hjj hii (by norm_num)]
    simp [propagateCell, hob]
  · rw [propagate_grid_at p c tmp obst hjj hii (by norm_num)]
    simp [propagateCell, hob]
  · rw [propagate_grid_at p c tmp obst hjj hii (by norm_num)]
    simp [propagateCell, hob]
  · rw [propagate_grid_at p c tmp obst hjj hii (by norm_num)]
    simp [propagateCell, hob]
  · simp [cellU, hob]
  · simp [cell_count, hob]

/-- An all-obstacle mask. -/
def allBlocked : Obstacles := fun _ => true

/-- An all-fluid mask. -/
def allFluid : Obstacles := fun _ => false

/-- Witness for C2: the theorem instantiated at a concrete obstacle
cell of a concrete grid. -/
theorem obstacle_bounce_back_witness :
    (1 : ℕ) < witnessParams.ny ∧ (2 : ℕ) < witnessParams.nx
      ∧ allBlocked (2 + 1 * witnessParams.nx) = true
      ∧ (propagate_grid witnessParams witnessCells witnessCells allBlocked 1
            (2 + 1 * witnessParams.nx) = gather witnessParams witnessCells 1 2 3
          ∧ cellU witnessParams witnessCells allBlocked 1 2 = 0
          ∧ cell_count witnessParams allBlocked 1 2 = 0) :=
  ⟨by norm_num [witnessParams], by norm_num [witnessParams], rfl,
   ((obstacle_bounce_back witnessParams witnessCells witnessCells allBlocked 1 2
      (by norm_num [witnessParams]) (by norm_num [witnessParams]) rfl).2.1),
   ((obstacle_bounce_back witnessParams witnessCells witnessCells allBlocked 1 2
      (by norm_num [witnessParams]) (by norm_num [witnessParams]) rfl).2.2.2.2.2.2.2.2.2.1),
   ((obstacle_bounce_back witnessParams witnessCells witnessCells allBlocked 1 2
      (by norm_num [witnessParams]) (by norm_num [witnessParams]) rfl).2.2.2.2.2.2.2.2.2.2)⟩

/- ------------------------------------------------------------------ -/
/- C3 -/

/-- The channel weight w(k) as the spec states it: 4/9 at rest, 1/9 on
the axes, 1/36 on the diagonals (refinement comparison definition). -/
def spec_w (k : ℕ) : ℚ :=
  match k with
  | 0 => 4 / 9
  | 1 | 2 | 3 | 4 => 1 / 9
  | _ => 1 / 36

/-- The signed projection of (ux, uy) onto direction k, as the spec
states it (refinement comparison definition). -/
def spec_u (p : t_param) (c : Speeds) (jj ii k : ℕ) : ℚ :=
  ((velocity k).1 : ℚ) * u_x p c jj ii + ((velocity k).2 : ℚ) * u_y p c jj ii

/-- The equilibrium value eq_k exactly as the spec writes it:
w(k) * local_density * (1 + u_k/c_sq + u_k^2/(2 c_sq^2)
- u_sq/(2 c_sq)) with c_sq = 1/3 (refinement comparison definition). -/
def spec_d_equ (p : t_param) (c : Speeds) (jj ii k : ℕ) : ℚ :=
  spec_w k * local_density p c jj ii *
    (1 + spec_u p c jj ii k / (1 / 3 : ℚ)
       + spec_u p c jj ii k ^ 2 / (2 * (1 / 3 : ℚ) ^ 2)
       - (u_x p c jj ii ^ 2 + u_y p c jj ii ^ 2) / (2 * (1 / 3 : ℚ)))

/-- C3: at every fluid cell, propagate computes local_density as the sum
of the 9 gathered values, ux and uy by the stated quotients, writes
gathered_k + omega*(eq_k - gathered_k) into every channel with eq_k
exactly the spec formula, and the cell contributes sqrt(u_sq) to the
velocity sum and 1 to the fluid-cell count. -/
theorem fluid_bgk_collision (p : t_param) (c tmp : Speeds) (obst : Obstacles)
    (jj ii : ℕ) (hjj : jj < p.ny) (hii : ii < p.nx)
    (hob : obst (ii + jj * p.nx) = false) :
    local_density p c jj ii
        = gather p c jj ii 0 + gather p c jj ii 1 + gather p c jj ii 2
          + gather p c jj ii 3 + gather p c jj ii 4 + gather p c jj ii 5
          + gather p c jj ii 6 + gather p c jj ii 7 + gather p c jj ii 8
      ∧ u_x p c jj ii
        = (gather p c jj ii 1 + gather p c jj ii 5 + gather p c jj ii 8
            - gather p c jj ii 3 - gather p c jj ii 6 - gather p c jj ii 7)
            / local_density p c jj ii
      ∧ u_y p c jj ii
        = (gather p c jj ii 2 + gather p c jj ii 5 + gather p c jj ii 6
            - gather p c jj ii 4 - gather p c jj ii 7 - gather p c jj ii 8)
            / local_density p c jj ii
      ∧ (∀ k, k < 9 →
          propagate_grid p c tmp obst k (ii + jj * p.nx)
            = gather p c jj ii k
              + p.omega * (spec_d_equ p c jj ii k - gather p c jj ii k))
      ∧ cellU p c obst jj ii
        = Real.sqrt (((u_x p c jj ii ^ 2 + u_y p c jj ii ^ 2 : ℚ) : ℝ))
      ∧ cell_count p obst jj ii = 1 := by
  refine ⟨rfl, rfl, rfl, ?_, ?_, ?_⟩
  · intro k hk
    rw [propagate_grid_at p c tmp obst hjj hii hk]
    have hob2 : ¬ (obst (ii + jj * p.nx) = true) := by simp [hob]
    interval_cases k <;>
      (simp only [propagateCell, if_neg hob2, spec_d_equ, spec_u, spec_w, velocity]
       push_cast
       ring)
  · simp only [cellU, hob, Bool.false_eq_true, if_false]
    congr 1
    push_cast
    ring
  · simp [cell_count, hob]

/-- Witness for C3: the theorem instantiated at a concrete fluid cell
of a concrete grid. -/
theorem fluid_bgk_collision_witness :
    (1 : ℕ) < witnessParams.ny ∧ (2 : ℕ) < witnessParams.nx
      ∧ allFluid (2 + 1 * witnessParams.nx) = false
      ∧ (propagate_grid witnessParams witnessCells witnessCells allFluid 1
            (2 + 1 * witnessParams.nx)
          = gather witnessParams witnessCells 1 2 1
            + witnessParams.omega
              * (spec_d_equ witnessParams witnessCells 1 2 1
                  - gather witnessParams witnessCells 1 2 1)
          ∧ cell_count witnessParams allFluid 1 2 = 1) :=
  ⟨by norm_num [witnessParams], by norm_num [witnessParams], rfl,
   ((fluid_bgk_collision witnessParams witnessCells witnessCells allFluid 1 2
      (by norm_num [witnessParams]) (by norm_num [witnessParams]) rfl).2.2.2.1 1
      (by norm_num)),
   ((fluid_bgk_collision witnessParams witnessCells witnessCells allFluid 1 2
      (by norm_num [witnessParams]) (by norm_num [witnessParams]) rfl).2.2.2.2.2)⟩

/- ------------------------------------------------------------------ -/
/- C4 -/

lemma sum_range_pred_shift {M : Type} [AddCommMonoid M] (n : ℕ) (hn : 0 < n)
    (f : ℕ → M) :
    ∑ i ∈ Finset.range n, f (if i = 0 then i + n - 1 else i - 1)
      = ∑ i ∈ Finset.range n, f i := by
  refine Finset.sum_nbij' (fun i => if i = 0 then i + n - 1 else i - 1)
    (fun j => if j = n - 1 then 0 else j + 1) ?_ ?_ ?_ ?_ ?_
  · intro a ha
    simp only [Finset.mem_range] at *
    split_ifs <;> omega
  · intro a ha
    simp only [Finset.mem_range] at *
    split_ifs <;> omega
  · intro a ha
    simp only [Finset.mem_range] at ha
    dsimp only
    split_ifs <;> first | omega | contradiction
  · intro a ha
    simp only [Finset.mem_range] at ha
    dsimp only
    split_ifs <;> first | omega | contradiction
  · intro a ha
    rfl

lemma sum_range_succ_shift {M : Type} [AddCommMonoid M] (n : ℕ) (hn : 0 < n)
    (f : ℕ → M) :
    ∑ i ∈ Finset.range n, f ((i + 1) % n) = ∑ i ∈ Finset.range n, f i := by
  have key : ∀ a, a < n → (a + 1) % n = if a + 1 = n then 0 else a + 1 := by
    intro a ha
    split_ifs with h
    · rw [h, Nat.mod_self]
    · exact Nat.mod_eq_of_lt (by omega)
  refine Finset.sum_nbij' (fun i => (i + 1) % n)
    (fun j => if j = 0 then n - 1 else j - 1) ?_ ?_ ?_ ?_ ?_
  · intro a ha
    simp only [Finset.mem_range] at *
    exact Nat.mod_lt _ hn
  · intro a ha
    simp only [Finset.mem_range] at *
    split_ifs <;> omega
  · intro a ha
    simp only [Finset.mem_range] at ha
    dsimp only
    rw [key a ha]
    split_ifs <;> first | omega | contradiction
  · intro a ha
    simp only [Finset.mem_range] at ha
    dsimp only
    split_ifs with h
    · rw [key (n - 1) (by omega)]
      split_ifs <;> first | omega | contradiction
    · rw [key (a - 1) (by omega)]
      split_ifs <;> first | omega | contradiction
  · intro a ha
    rfl

/-- The 9 written channel values of one cell sum to the 9 gathered
values: bounce-back permutes them and BGK relaxation conserves the
local density. -/
lemma propagateCell_sum (p : t_param) (c : Speeds) (obst : Obstacles) (jj ii : ℕ) :
    ∑ kk ∈ Finset.range 9, propagateCell p c obst jj ii kk
      = ∑ kk ∈ Finset.range 9, gather p c jj ii kk := by
  simp only [Finset.sum_range_succ, Finset.sum_range_zero]
  by_cases hob : obst (ii + jj * p.nx) = true
  · simp [propagateCell, hob]
    ring
  · have hob2 : obst (ii + jj * p.nx) = false := by
      revert hob
      cases obst (ii + jj * p.nx) <;> simp
    simp [propagateCell, hob2, local_density]
    ring

/-- Streaming is a permutation of mass: summing the gathered values
over the whole torus gives the total density of the source grid. -/
lemma gather_total (p : t_param) (c : Speeds) (hnx : 0 < p.nx) (hny : 0 < p.ny) :
    ∑ jj ∈ Finset.range p.ny, ∑ ii ∈ Finset.range p.nx,
        ∑ kk ∈ Finset.range 9, gather p c jj ii kk
      = total_density p c := by
  have expandL : ∀ jj ii, (∑ kk ∈ Finset.range 9, gather p c jj ii kk)
      = gather p c jj ii 0 + gather p c jj ii 1 + gather p c jj ii 2
        + gather p c jj ii 3 + gather p c jj ii 4 + gather p c jj ii 5
        + gather p c jj ii 6 + gather p c jj ii 7 + gather p c jj ii 8 := by
    intro jj ii
    simp [Finset.sum_range_succ]
  have expandR : ∀ jj ii, (∑ kk ∈ Finset.range 9, c kk (ii + jj * p.nx))
      = c 0 (ii + jj * p.nx) + c 1 (ii + jj * p.nx) + c 2 (ii + jj * p.nx)
        + c 3 (ii + jj * p.nx) + c 4 (ii + jj * p.nx) + c 5 (ii + jj * p.nx)
        + c 6 (ii + jj * p.nx) + c 7 (ii + jj * p.nx) + c 8 (ii + jj * p.nx) := by
    intro jj ii
    simp [Finset.sum_range_succ]
  have h0 : ∑ jj ∈ Finset.range p.ny, ∑ ii ∈ Finset.range p.nx, gather p c jj ii 0
      = ∑ jj ∈ Finset.range p.ny, ∑ ii ∈ Finset.range p.nx, c 0 (ii + jj * p.nx) := rfl
  have h1 : ∑ jj ∈ Finset.range p.ny, ∑ ii ∈ Finset.range p.nx, gather p c jj ii 1
      = ∑ jj ∈ Finset.range p.ny, ∑ ii ∈ Finset.range p.nx, c 1 (ii + jj * p.nx) :=
    Finset.sum_congr rfl (fun jj _ => sum_range_pred_shift p.nx hnx
      (fun m => c 1 (m + jj * p.nx)))
  have h2 : ∑ jj ∈ Finset.range p.ny, ∑ ii ∈ Finset.range p.nx, gather p c jj ii 2
      = ∑ jj ∈ Finset.range p.ny, ∑ ii ∈ Finset.range p.nx, c 2 (ii + jj * p.nx) :=
    sum_range_pred_shift p.ny hny
      (fun r => ∑ ii ∈ Finset.range p.nx, c 2 (ii + r * p.nx))
  have h3 : ∑ jj ∈ Finset.range p.ny, ∑ ii ∈ Finset.range p.nx, gather p c jj ii 3
      = ∑ jj ∈ Finset.range p.ny, ∑ ii ∈ Finset.range p.nx, c 3 (ii + jj * p.nx) :=
    Finset.sum_congr rfl (fun jj _ => sum_range_succ_shift p.nx hnx
      (fun m => c 3 (m + jj * p.nx)))
  have h4 : ∑ jj ∈ Finset.range p.ny, ∑ ii ∈ Finset.range p.nx, gather p c jj ii 4
      = ∑ jj ∈ Finset.range p.ny, ∑ ii ∈ Finset.range p.nx, c 4 (ii + jj * p.nx) :=
    sum_range_succ_shift p.ny hny
      (fun r => ∑ ii ∈ Finset.range p.nx, c 4 (ii + r * p.nx))
  have h5 : ∑ jj ∈ Finset.range p.ny, ∑ ii ∈ Finset.range p.nx, gather p c jj ii 5
      = ∑ jj ∈ Finset.range p.ny, ∑ ii ∈ Finset.range p.nx, c 5 (ii + jj * p.nx) := by
    calc ∑ jj ∈ Finset.range p.ny, ∑ ii ∈ Finset.range p.nx, gather p c jj ii 5
        = ∑ jj ∈ Finset.range p.ny,
            (fun r => ∑ ii ∈ Finset.range p.nx, c 5 (ii + r * p.nx))
              (if jj = 0 then jj + p.ny - 1 else jj - 1) :=
          Finset.sum_congr rfl (fun jj _ => sum_range_pred_shift p.nx hnx
            (fun m => c 5 (m + (if jj = 0 then jj + p.ny - 1 else jj - 1) * p.nx)))
      _ = ∑ jj ∈ Finset.range p.ny, ∑ ii ∈ Finset.range p.nx, c 5 (ii + jj * p.nx) :=
          sum_range_pred_shift p.ny hny
            (fun r => ∑ ii ∈ Finset.range p.nx, c 5 (ii + r * p.nx))
  have h6 : ∑ jj ∈ Finset.range p.ny, ∑ ii ∈ Finset.range p.nx, gather p c jj ii 6
      = ∑ jj ∈ Finset.range p.ny, ∑ ii ∈ Finset.range p.nx, c 6 (ii + jj * p.nx) := by
    calc ∑ jj ∈ Finset.range p.ny, ∑ ii ∈ Finset.range p.nx, gather p c jj ii 6
        = ∑ jj ∈ Finset.range p.ny,
            (fun r => ∑ ii ∈ Finset.range p.nx, c 6 (ii + r * p.nx))
              (if jj = 0 then jj + p.ny - 1 else jj - 1) :=
          Finset.sum_congr rfl (fun jj _ => sum_range_succ_shift p.nx hnx
            (fun m => c 6 (m + (if jj = 0 then jj + p.ny - 1 else jj - 1) * p.nx)))
      _ = ∑ jj ∈ Finset.range p.ny, ∑ ii ∈ Finset.range p.nx, c 6 (ii + jj * p.nx) :=
          sum_range_pred_shift p.ny hny
            (fun r => ∑ ii ∈ Finset.range p.nx, c 6 (ii + r * p.nx))
  have h7 : ∑ jj ∈ Finset.range p.ny, ∑ ii ∈ Finset.range p.nx, gather p c jj ii 7
      = ∑ jj ∈ Finset.range p.ny, ∑ ii ∈ Finset.range p.nx, c 7 (ii + jj * p.nx) := by
    calc ∑ jj ∈ Finset.range p.ny, ∑ ii ∈ Finset.range p.nx, gather p c jj ii 7
        = ∑ jj ∈ Finset.range p.ny,
            (fun r => ∑ ii ∈ Finset.range p.nx, c 7 (ii + r * p.nx))
              ((jj + 1) % p.ny) :=
          Finset.sum_congr rfl (fun jj _ => sum_range_succ_shift p.nx hnx
            (fun m => c 7 (m + ((jj + 1) % p.ny) * p.nx)))
      _ = ∑ jj ∈ Finset.range p.ny, ∑ ii ∈ Finset.range p.nx, c 7 (ii + jj * p.nx) :=
          sum_range_succ_shift p.ny hny
            (fun r => ∑ ii ∈ Finset.range p.nx, c 7 (ii + r * p.nx))
  have h8 : ∑ jj ∈ Finset.range p.ny, ∑ ii ∈ Finset.range p.nx, gather p c jj ii 8
      = ∑ jj ∈ Finset.range p.ny, ∑ ii ∈ Finset.range p.nx, c 8 (ii + jj * p.nx) := by
    calc ∑ jj ∈ Finset.range p.ny, ∑ ii ∈ Finset.range p.nx, gather p c jj ii 8
        = ∑ jj ∈ Finset.range p.ny,
            (fun r => ∑ ii ∈ Finset.range p.nx, c 8 (ii + r * p.nx))
              ((jj + 1) % p.ny) :=
          Finset.sum_congr rfl (fun jj _ => sum_range_pred_shift p.nx hnx
            (fun m => c 8 (m + ((jj + 1) % p.ny) * p.nx)))
      _ = ∑ jj ∈ Finset.range p.ny, ∑ ii ∈ Finset.range p.nx, c 8 (ii + jj * p.nx) :=
          sum_range_succ_shift p.ny hny
            (fun r => ∑ ii ∈ Finset.range p.nx, c 8 (ii + r * p.nx))
  simp only [expandL, Finset.sum_add_distrib, total_density, expandR]
  rw [h0, h1, h2, h3, h4, h5, h6, h7, h8]

/-- propagate conserves the total density of the source grid. -/
lemma total_density_propagate (p : t_param) (c tmp : Speeds) (obst : Obstacles)
    (hnx : 0 < p.nx) (hny : 0 < p.ny) :
    total_density p (propagate_grid p c tmp obst) = total_density p c := by
  have step1 : total_density p (propagate_grid p c tmp obst)
      = ∑ jj ∈ Finset.range p.ny, ∑ ii ∈ Finset.range p.nx,
          ∑ kk ∈ Finset.range 9, propagateCell p c obst jj ii kk := by
    unfold total_density
    refine Finset.sum_congr rfl (fun jj hjj => Finset.sum_congr rfl
      (fun ii hii => Finset.sum_congr rfl (fun kk hkk => ?_)))
    exact propagate_grid_at p c tmp obst (Finset.mem_range.mp hjj)
      (Finset.mem_range.mp hii) (Finset.mem_range.mp hkk)
  rw [step1]
  simp only [propagateCell_sum p c obst]
  exact gather_total p c hnx hny

/-- accelerate_flow conserves the total density (each touched cell has
its channel sum preserved). -/
lemma total_density_accelerate (p : t_param) (c : Speeds) (obst : Obstacles) :
    total_density p (accelerate_flow p c obst) = total_density p c := by
  unfold total_density
  refine Finset.sum_congr rfl (fun jj hjj => Finset.sum_congr rfl (fun ii hii => ?_))
  simp only [Finset.sum_range_succ, Finset.sum_range_zero]
  by_cases h : 0 < p.nx ∧ (ii + jj * p.nx) / p.nx = p.ny - 2
      ∧ obst (ii + jj * p.nx) = false
      ∧ 0 < c 3 (ii + jj * p.nx) - p.density * p.accel / 9
      ∧ 0 < c 6 (ii + jj * p.nx) - p.density * p.accel / 36
      ∧ 0 < c 7 (ii + jj * p.nx) - p.density * p.accel / 36
  · simp only [accelerate_flow, if_pos h]
    ring
  · simp only [accelerate_flow, if_neg h]

/-- C4: total density over the whole grid is conserved exactly (in the
rational-arithmetic model) by one full step, accelerate_flow followed
by propagate. -/
theorem mass_conservation (p : t_param) (c tmp : Speeds) (obst : Obstacles)
    (hnx : 0 < p.nx) (hny : 0 < p.ny) :
    total_density p (propagate_grid p (accelerate_flow p c obst) tmp obst)
      = total_density p c := by
  rw [total_density_propagate p (accelerate_flow p c obst) tmp obst hnx hny,
    total_density_accelerate]

/-- Witness for C4: conservation instantiated at a concrete grid. -/
theorem mass_conservation_witness :
    (0 : ℕ) < witnessParams.nx ∧ (0 : ℕ) < witnessParams.ny
      ∧ total_density witnessParams
          (propagate_grid witnessParams
            (accelerate_flow witnessParams witnessCells allFluid)
            witnessCells allFluid)
        = total_density witnessParams witnessCells :=
  ⟨by norm_num [witnessParams], by norm_num [witnessParams],
   mass_conservation witnessParams witnessCells witnessCells allFluid
     (by norm_num [witnessParams]) (by norm_num [witnessParams])⟩


/- ------------------------------------------------------------------ -/
/- C5 -/

/-- C5 (amended): accelerate_flow modifies only non-obstacle cells of
the row at index ny-2, applies the redistribution exactly when
subtracting w1 from channel 3 and w2 from channels 6 and 7 leaves all
three strictly positive, and otherwise leaves the cell completely
unchanged; cells of every other row are unchanged. -/
theorem accelerate_flow_spec (p : t_param) (c : Speeds) (obst : Obstacles)
    (jj ii : ℕ) (hny : 2 ≤ p.ny) (hjj : jj < p.ny) (hii : ii < p.nx) :
    (jj ≠ p.ny - 2 →
        ∀ k, accelerate_flow p c obst k (ii + jj * p.nx) = c k (ii + jj * p.nx))
      ∧ (obst (ii + jj * p.nx) = true →
        ∀ k, accelerate_flow p c obst k (ii + jj * p.nx) = c k (ii + jj * p.nx))
      ∧ (¬ (0 < c 3 (ii + jj * p.nx) - p.density * p.accel / 9
            ∧ 0 < c 6 (ii + jj * p.nx) - p.density * p.accel / 36
            ∧ 0 < c 7 (ii + jj * p.nx) - p.density * p.accel / 36) →
        ∀ k, accelerate_flow p c obst k (ii + jj * p.nx) = c k (ii + jj * p.nx))
      ∧ (jj = p.ny - 2 → obst (ii + jj * p.nx) = false →
          0 < c 3 (ii + jj * p.nx) - p.density * p.accel / 9 →
          0 < c 6 (ii + jj * p.nx) - p.density * p.accel / 36 →
          0 < c 7 (ii + jj * p.nx) - p.density * p.accel / 36 →
          accelerate_flow p c obst 1 (ii + jj * p.nx)
              = c 1 (ii + jj * p.nx) + p.density * p.accel / 9
            ∧ accelerate_flow p c obst 5 (ii + jj * p.nx)
              = c 5 (ii + jj * p.nx) + p.density * p.accel / 36
            ∧ accelerate_flow p c obst 8 (ii + jj * p.nx)
              = c 8 (ii + jj * p.nx) + p.density * p.accel / 36
            ∧ accelerate_flow p c obst 3 (ii + jj * p.nx)
              = c 3 (ii + jj * p.nx) - p.density * p.accel / 9
            ∧ accelerate_flow p c obst 6 (ii + jj * p.nx)
              = c 6 (ii + jj * p.nx) - p.density * p.accel / 36
            ∧ accelerate_flow p c obst 7 (ii + jj * p.nx)
              = c 7 (ii + jj * p.nx) - p.density * p.accel / 36
            ∧ accelerate_flow p c obst 0 (ii + jj * p.nx) = c 0 (ii + jj * p.nx)
            ∧ accelerate_flow p c obst 2 (ii + jj * p.nx) = c 2 (ii + jj * p.nx)
            ∧ accelerate_flow p c obst 4 (ii + jj * p.nx) = c 4 (ii + jj * p.nx)) := by
  have hnx : 0 < p.nx := by omega
  have hd : (ii + jj * p.nx) / p.nx = jj := flat_div hnx hii
  refine ⟨?_, ?_, ?_, ?_⟩
  · intro hne k
    simp only [accelerate_flow]
    rw [if_neg]
    rintro ⟨-, hrow, -⟩
    exact hne (by rw [← hd, hrow])
  · intro hob k
    simp only [accelerate_flow]
    rw [if_neg]
    rintro ⟨-, -, hob2, -⟩
    rw [hob] at hob2
    exact Bool.noConfusion hob2
  · intro hg k
    simp only [accelerate_flow]
    rw [if_neg]
    rintro ⟨-, -, -, h3, h6, h7⟩
    exact hg ⟨h3, h6, h7⟩
  · intro hrow hob h3 h6 h7
    have hcond : 0 < p.nx ∧ (ii + jj * p.nx) / p.nx = p.ny - 2
        ∧ obst (ii + jj * p.nx) = false
        ∧ 0 < c 3 (ii + jj * p.nx) - p.density * p.accel / 9
        ∧ 0 < c 6 (ii + jj * p.nx) - p.density * p.accel / 36
        ∧ 0 < c 7 (ii + jj * p.nx) - p.density * p.accel / 36 :=
      ⟨hnx, by rw [hd, hrow], hob, h3, h6, h7⟩
    refine ⟨?_, ?_, ?_, ?_, ?_, ?_, ?_, ?_, ?_⟩ <;>
      simp only [accelerate_flow, if_pos hcond]

/-- Concrete parameters for the C5 counterexample: density 9, accel 1,
so w1 = 1 and w2 = 1/4. -/
def cexParams : t_param :=
  { nx := 1, ny := 3, maxIters := 2, reynolds_dim := 1,
    density := 9, accel := 1, omega := 1 }

/-- A grid whose channels are all 1, so channel 3 minus w1 is exactly 0. -/
def cexOnes : Speeds := fun _ _ => 1

/-- Counterexample to C5 as stated: at the cell of row ny-2 below, the
claim's guard holds (subtracting w1 from channel 3 and w2 from
channels 6 and 7 leaves them non-negative) and the cell is not an
obstacle, yet accelerate_flow leaves channel 1 unchanged even though
the claim requires adding w1 = 1 to it, because the code demands the
strict inequality cells[3] - w1 > 0. -/
theorem accelerate_flow_nonneg_guard_cex :
    allFluid (0 + (cexParams.ny - 2) * cexParams.nx) = false
      ∧ 0 ≤ cexOnes 3 (0 + (cexParams.ny - 2) * cexParams.nx)
          - cexParams.density * cexParams.accel / 9
      ∧ 0 ≤ cexOnes 6 (0 + (cexParams.ny - 2) * cexParams.nx)
          - cexParams.density * cexParams.accel / 36
      ∧ 0 ≤ cexOnes 7 (0 + (cexParams.ny - 2) * cexParams.nx)
          - cexParams.density * cexParams.accel / 36
      ∧ accelerate_flow cexParams cexOnes allFluid 1
            (0 + (cexParams.ny - 2) * cexParams.nx)
          = cexOnes 1 (0 + (cexParams.ny - 2) * cexParams.nx)
      ∧ cexOnes 1 (0 + (cexParams.ny - 2) * cexParams.nx)
            + cexParams.density * cexParams.accel / 9
          ≠ cexOnes 1 (0 + (cexParams.ny - 2) * cexParams.nx) := by
  refine ⟨rfl, by norm_num [cexOnes, cexParams], by norm_num [cexOnes, cexParams],
    by norm_num [cexOnes, cexParams], ?_, by norm_num [cexOnes, cexParams]⟩
  simp only [accelerate_flow]
  rw [if_neg]
  rintro ⟨-, -, -, h3, -⟩
  norm_num [cexOnes, cexParams] at h3

/-- Witness for the amended C5 theorem: a cell of a row other than
ny-2 is unchanged. -/
theorem accelerate_flow_spec_witness :
    2 ≤ witnessParams.ny ∧ (0 : ℕ) < witnessParams.ny
      ∧ (2 : ℕ) < witnessParams.nx ∧ (0 : ℕ) ≠ witnessParams.ny - 2
      ∧ accelerate_flow witnessParams witnessCells allFluid 4
          (2 + 0 * witnessParams.nx)
        = witnessCells 4 (2 + 0 * witnessParams.nx) :=
  ⟨by norm_num [witnessParams], by norm_num [witnessParams],
   by norm_num [witnessParams], by norm_num [witnessParams],
   (accelerate_flow_spec witnessParams witnessCells allFluid 0 2
      (by norm_num [witnessParams]) (by norm_num [witnessParams])
      (by norm_num [witnessParams])).1 (by norm_num [witnessParams]) 4⟩

/- ------------------------------------------------------------------ -/
/- C6 -/

lemma accelerate_flow_accel_zero (p : t_param) (c : Speeds) (obst : Obstacles)
    (ha : p.accel = 0) : ∀ k idx, accelerate_flow p c obst k idx = c k idx := by
  intro k idx
  simp only [accelerate_flow, ha]
  split_ifs with h
  · rcases k with _ | _ | _ | _ | _ | _ | _ | _ | _ | k <;> first | rfl | norm_num
  · rfl

lemma gather_equilibrium (p : t_param) (c : Speeds) {jj ii : ℕ}
    (hnx : 0 < p.nx) (hny : 0 < p.ny)
    (hc : ∀ k, k < 9 → ∀ idx, idx < p.nx * p.ny → c k idx = init_val p k)
    (hjj : jj < p.ny) (hii : ii < p.nx) :
    ∀ k, k < 9 → gather p c jj ii k = init_val p k := by
  have hyn : (jj + 1) % p.ny < p.ny := Nat.mod_lt _ hny
  have hxe : (ii + 1) % p.nx < p.nx := Nat.mod_lt _ hnx
  have hys : (if jj = 0 then jj + p.ny - 1 else jj - 1) < p.ny := by
    split_ifs <;> omega
  have hxw : (if ii = 0 then ii + p.nx - 1 else ii - 1) < p.nx := by
    split_ifs <;> omega
  intro k hk
  interval_cases k
  · exact hc 0 (by norm_num) _ (flat_lt hjj hii)
  · exact hc 1 (by norm_num) _ (flat_lt hjj hxw)
  · exact hc 2 (by norm_num) _ (flat_lt hys hii)
  · exact hc 3 (by norm_num) _ (flat_lt hjj hxe)
  · exact hc 4 (by norm_num) _ (flat_lt hyn hii)
  · exact hc 5 (by norm_num) _ (flat_lt hys hxw)
  · exact hc 6 (by norm_num) _ (flat_lt hys hxe)
  · exact hc 7 (by norm_num) _ (flat_lt hyn hxe)
  · exact hc 8 (by norm_num) _ (flat_lt hyn hxw)

lemma u_x_equilibrium (p : t_param) (c : Speeds) {jj ii : ℕ}
    (hnx : 0 < p.nx) (hny : 0 < p.ny)
    (hc : ∀ k, k < 9 → ∀ idx, idx < p.nx * p.ny → c k idx = init_val p k)
    (hjj : jj < p.ny) (hii : ii < p.nx) :
    u_x p c jj ii = 0 := by
  have hg := gather_equilibrium p c hnx hny hc hjj hii
  rw [u_x, hg 1 (by norm_num), hg 5 (by norm_num), hg 8 (by norm_num),
    hg 3 (by norm_num), hg 6 (by norm_num), hg 7 (by norm_num)]
  simp only [init_val]
  rw [show p.density / 9 + p.density / 36 + p.density / 36 - p.density / 9
      - p.density / 36 - p.density / 36 = (0 : ℚ) from by ring, zero_div]

lemma u_y_equilibrium (p : t_param) (c : Speeds) {jj ii : ℕ}
    (hnx : 0 < p.nx) (hny : 0 < p.ny)
    (hc : ∀ k, k < 9 → ∀ idx, idx < p.nx * p.ny → c k idx = init_val p k)
    (hjj : jj < p.ny) (hii : ii < p.nx) :
    u_y p c jj ii = 0 := by
  have hg := gather_equilibrium p c hnx hny hc hjj hii
  rw [u_y, hg 2 (by norm_num), hg 5 (by norm_num), hg 6 (by norm_num),
    hg 4 (by norm_num), hg 7 (by norm_num), hg 8 (by norm_num)]
  simp only [init_val]
  rw [show p.density / 9 + p.density / 36 + p.density / 36 - p.density / 9
      - p.density / 36 - p.density / 36 = (0 : ℚ) from by ring, zero_div]

lemma local_density_equilibrium (p : t_param) (c : Speeds) {jj ii : ℕ}
    (hnx : 0 < p.nx) (hny : 0 < p.ny)
    (hc : ∀ k, k < 9 → ∀ idx, idx < p.nx * p.ny → c k idx = init_val p k)
    (hjj : jj < p.ny) (hii : ii < p.nx) :
    local_density p c jj ii = p.density := by
  have hg := gather_equilibrium p c hnx hny hc hjj hii
  rw [local_density, hg 0 (by norm_num), hg 1 (by norm_num), hg 2 (by norm_num),
    hg 3 (by norm_num), hg 4 (by norm_num), hg 5 (by norm_num),
    hg 6 (by norm_num), hg 7 (by norm_num), hg 8 (by norm_num)]
  simp [init_val]
  ring

lemma propagateCell_equilibrium (p : t_param) (c : Speeds) (obst : Obstacles)
    {jj ii : ℕ} (hnx : 0 < p.nx) (hny : 0 < p.ny)
    (hobst : ∀ i, obst i = false)
    (hc : ∀ k, k < 9 → ∀ idx, idx < p.nx * p.ny → c k idx = init_val p k)
    (hjj : jj < p.ny) (hii : ii < p.nx) :
    ∀ k, k < 9 → propagateCell p c obst jj ii k = init_val p k := by
  have hg := gather_equilibrium p c hnx hny hc hjj hii
  have hux := u_x_equilibrium p c hnx hny hc hjj hii
  have huy := u_y_equilibrium p c hnx hny hc hjj hii
  have hld := local_density_equilibrium p c hnx hny hc hjj hii
  have hobF : ¬ (obst (ii + jj * p.nx) = true) := by simp [hobst]
  intro k hk
  interval_cases k <;>
    (simp only [propagateCell, if_neg hobF]
     rw [hux, huy, hld]
     simp only [hg 0 (by norm_num), hg 1 (by norm_num), hg 2 (by norm_num),
       hg 3 (by norm_num), hg 4 (by norm_num), hg 5 (by norm_num),
       hg 6 (by norm_num), hg 7 (by norm_num), hg 8 (by norm_num), init_val]
     ring)

lemma propagate_grid_equilibrium (p : t_param) (c tmp : Speeds) (obst : Obstacles)
    (hnx : 0 < p.nx) (hny : 0 < p.ny)
    (hobst : ∀ i, obst i = false)
    (hc : ∀ k, k < 9 → ∀ idx, idx < p.nx * p.ny → c k idx = init_val p k) :
    ∀ k, k < 9 → ∀ idx, idx < p.nx * p.ny →
      propagate_grid p c tmp obst k idx = init_val p k := by
  intro k hk idx hidx
  have hjj : idx / p.nx < p.ny := by
    rw [Nat.div_lt_iff_lt_mul hnx]
    calc idx < p.nx * p.ny := hidx
      _ = p.ny * p.nx := Nat.mul_comm p.nx p.ny
  have hii : idx % p.nx < p.nx := Nat.mod_lt _ hnx
  simp only [propagate_grid, if_pos (And.intro hk (And.intro hnx hidx))]
  exact propagateCell_equilibrium p c obst hnx hny hobst hc hjj hii k hk

lemma run_equilibrium (p : t_param) (obst : Obstacles)
    (hnx : 0 < p.nx) (hny : 0 < p.ny) (hacc : p.accel = 0)
    (hobst : ∀ i, obst i = false) :
    ∀ n (s : Speeds × Speeds),
      (∀ k, k < 9 → ∀ idx, idx < p.nx * p.ny → s.1 k idx = init_val p k) →
      ∀ k, k < 9 → ∀ idx, idx < p.nx * p.ny →
        (run p obst n s).1 k idx = init_val p k := by
  intro n
  induction n with
  | zero => intro s hs; exact hs
  | succ m ih =>
    intro s hs
    have hs2 : ∀ k, k < 9 → ∀ idx, idx < p.nx * p.ny →
        accelerate_flow p s.1 obst k idx = init_val p k := by
      intro k hk idx hidx
      rw [accelerate_flow_accel_zero p s.1 obst hacc k idx]
      exact hs k hk idx hidx
    have hstep : ∀ k, k < 9 → ∀ idx, idx < p.nx * p.ny →
        (step_pair p obst s).1 k idx = init_val p k := by
      intro k hk idx hidx
      exact propagate_grid_equilibrium p (accelerate_flow p s.1 obst) s.2 obst
        hnx hny hobst hs2 k hk idx hidx
    simp only [run]
    exact ih (step_pair p obst s) hstep

lemma timestep_av_equilibrium (p : t_param) (c : Speeds) (obst : Obstacles)
    (hnx : 0 < p.nx) (hny : 0 < p.ny) (hacc : p.accel = 0)
    (hobst : ∀ i, obst i = false)
    (hc : ∀ k, k < 9 → ∀ idx, idx < p.nx * p.ny → c k idx = init_val p k) :
    timestep_av p c obst = 0 := by
  have hs2 : ∀ k, k < 9 → ∀ idx, idx < p.nx * p.ny →
      accelerate_flow p c obst k idx = init_val p k := by
    intro k hk idx hidx
    rw [accelerate_flow_accel_zero p c obst hacc k idx]
    exact hc k hk idx hidx
  have htotu : tot_u p (accelerate_flow p c obst) obst = 0 := by
    rw [tot_u]
    refine Finset.sum_eq_zero (fun jj hjj => Finset.sum_eq_zero (fun ii hii => ?_))
    rw [Finset.mem_range] at hjj hii
    have hux := u_x_equilibrium p (accelerate_flow p c obst) hnx hny hs2 hjj hii
    have huy := u_y_equilibrium p (accelerate_flow p c obst) hnx hny hs2 hjj hii
    rw [cellU, if_neg (by simp [hobst])]
    rw [hux, huy]
    norm_num
  rw [timestep_av, propagate_av, htotu, zero_div]

/-- C6: a state at the zero-velocity equilibrium with no obstacles and
accel = 0 is a fixed point of the timestep: after any number of steps
every in-range channel value equals its initial value init_val, and
each step returns average velocity 0 (for any omega and density). -/
theorem equilibrium_fixed_point (p : t_param) (c tmp : Speeds) (obst : Obstacles)
    (hnx : 0 < p.nx) (hny : 0 < p.ny) (hacc : p.accel = 0)
    (hobst : ∀ i, obst i = false)
    (hc : ∀ k, k < 9 → ∀ idx, idx < p.nx * p.ny → c k idx = init_val p k) :
    ∀ n, (∀ k, k < 9 → ∀ idx, idx < p.nx * p.ny →
            (run p obst n (c, tmp)).1 k idx = init_val p k)
      ∧ timestep_av p (run p obst n (c, tmp)).1 obst = 0 := by
  intro n
  have hinv := run_equilibrium p obst hnx hny hacc hobst n (c, tmp) hc
  exact ⟨hinv, timestep_av_equilibrium p _ obst hnx hny hacc hobst hinv⟩

/-- The end-to-end scenario parameters of the spec: nx = 2, ny = 2,
density = 0.1, accel = 0, omega = 1. -/
def e2eParams : t_param :=
  { nx := 2, ny := 2, maxIters := 2, reynolds_dim := 1,
    density := 1 / 10, accel := 0, omega := 1 }

/-- The equilibrium grid for the end-to-end scenario. -/
def e2eCells : Speeds := fun k _ => init_val e2eParams k

/-- An arbitrary scratch buffer. -/
def zeroCells : Speeds := fun _ _ => 0

/-- Witness for C6: the end-to-end scenario, one step. -/
theorem equilibrium_fixed_point_witness :
    (0 : ℕ) < e2eParams.nx ∧ (0 : ℕ) < e2eParams.ny ∧ e2eParams.accel = 0
      ∧ (∀ i, allFluid i = false)
      ∧ ((∀ k, k < 9 → ∀ idx, idx < e2eParams.nx * e2eParams.ny →
            (run e2eParams allFluid 1 (e2eCells, zeroCells)).1 k idx
              = init_val e2eParams k)
        ∧ timestep_av e2eParams
            (run e2eParams allFluid 1 (e2eCells, zeroCells)).1 allFluid = 0) :=
  ⟨by norm_num [e2eParams], by norm_num [e2eParams], rfl, fun i => rfl,
   equilibrium_fixed_point e2eParams e2eCells zeroCells allFluid
     (by norm_num [e2eParams]) (by norm_num [e2eParams]) rfl (fun i => rfl)
     (fun k hk idx hidx => rfl) 1⟩

/- ------------------------------------------------------------------ -/
/- C7 -/

/-- C7 (code bug witness): with maxIters = 1 the driver loop performs
one iteration that records two timestep returns, writing indices 0 and
1 — but the av_vels buffer allocated with maxIters entries only has
index 0, so the write at index 1 is out of bounds and the log length
is 2, not maxIters = 1. -/
theorem av_vels_loop_overrun :
    loop_writes 1 0 = [0, 1] ∧ (loop_writes 1 0).length ≠ 1
      ∧ ∃ i ∈ loop_writes 1 0, ¬ i < 1 := by
  have h1 : loop_writes 1 0 = [0, 1] := by
    rw [loop_writes]
    norm_num
    rw [loop_writes]
    norm_num
  refine ⟨h1, by rw [h1]; norm_num, ?_⟩
  rw [h1]
  exact ⟨1, by simp, by norm_num⟩

/- ------------------------------------------------------------------ -/
/- C8 -/

/-- C8 (amended): for ny = 3 (and in fact any ny > 1 would read the
same code path), the value gathered into channel 4 ('south') of a cell
at row 0 is taken from the same column of row 1: the code reads row
(jj + 1) % ny, and the wraparound to row ny - 1 happens at the top
row, not at row 0. -/
theorem south_gather_row0 (p : t_param) (c : Speeds) (ii : ℕ)
    (h3 : p.ny = 3) (hii : ii < p.nx) :
    gather p c 0 ii 4 = c 4 (ii + 1 * p.nx) := by
  simp [gather, h3]

/-- Concrete parameters for the C8 counterexample. -/
def cexParamsC8 : t_param :=
  { nx := 1, ny := 3, maxIters := 2, reynolds_dim := 1,
    density := 1, accel := 0, omega := 1 }

/-- A grid where every flat index holds its own value, so each row of
channel 4 is distinguishable. -/
def rowValueCells : Speeds := fun _ idx => (idx : ℚ)

/-- Counterexample to C8 as stated: with ny = 3, nx = 1 and channel 4
holding a distinct value in every row, the value gathered into channel
4 at row 0 is the row-1 value (1), not the row-(ny-1) value (2). -/
theorem south_gather_row0_cex :
    gather cexParamsC8 rowValueCells 0 0 4 = 1
      ∧ rowValueCells 4 (0 + (cexParamsC8.ny - 1) * cexParamsC8.nx) = 2
      ∧ (1 : ℚ) ≠ 2 := by
  refine ⟨?_, by norm_num [rowValueCells, cexParamsC8], by norm_num⟩
  simp [gather, cexParamsC8, rowValueCells]

/-- Witness for the amended C8 theorem. -/
theorem south_gather_row0_witness :
    cexParamsC8.ny = 3 ∧ (0 : ℕ) < cexParamsC8.nx
      ∧ gather cexParamsC8 rowValueCells 0 0 4
          = rowValueCells 4 (0 + 1 * cexParamsC8.nx) :=
  ⟨rfl, by norm_num [cexParamsC8],
   south_gather_row0 cexParamsC8 rowValueCells 0 rfl (by norm_num [cexParamsC8])⟩

/- ------------------------------------------------------------------ -/
/- C9 -/

/-- Concrete parameters for the C9 mismatch. -/
def cexParamsC9 : t_param :=
  { nx := 2, ny := 2, maxIters := 2, reynolds_dim := 1,
    density := 1, accel := 0, omega := 1 }

/-- An obstacle mask with a single obstacle at flat index 1, i.e. at
(x = 1, y = 0). -/
def oneObstacle : Obstacles := fun idx => idx == 1

/-- C9 (code bug witness): the seventh field printed by write_values
reads obstacles[ii * nx + jj] while the branch of the same line reads
obstacles[ii + jj * nx]; for nx = ny = 2 with the single obstacle at
(x = 1, y = 0), the line for cell jj = 0, ii = 1 prints flag false
although the branch treated the very same cell as an obstacle. -/
theorem write_values_flag_mismatch :
    cell_obstacle cexParamsC9 oneObstacle 0 1 = true
      ∧ write_flag cexParamsC9 oneObstacle 0 1 = false
      ∧ write_flag cexParamsC9 oneObstacle 0 1
          ≠ cell_obstacle cexParamsC9 oneObstacle 0 1 := by
  refine ⟨rfl, rfl, ?_⟩
  decide

end LBM
